import Mathlib

/-!
Verification of the biogas ETL pipeline (contact_builder.py, plant_builder.py,
main.py) via a shallow embedding.

Conventions of the embedding:
* A cell of a string-typed pandas DataFrame (`pd.read_csv(..., dtype=str)`) is
  `Option String`: `none` models a missing value (float NaN), `some s` a string
  read from the file.  With `dtype=str` an empty CSV field is parsed as NaN,
  so `some ""` arises only when the pipeline itself synthesizes a column and
  fills it with `""`.
* Python truthiness on such a cell: a float NaN is truthy (`bool(nan) = True`),
  a string is truthy iff non-empty.
* `str(x)` on such a cell: `str(nan) = "nan"`, `str(s) = s`.
-/

/-- One cell of a `dtype=str` DataFrame: `none` is NaN, `some s` a string. -/
abbrev Cell := Option String

/-- Python truthiness of a cell value: NaN is truthy, a string is truthy iff
non-empty. -/
def cellTruthy : Cell → Bool
  | none => true
  | some s => s != ""

/-- Python `str(...)` applied to a cell value: `str(nan) = "nan"`. -/
def cellStr : Cell → String
  | none => "nan"
  | some s => s

/-- A market-actor row after the column renaming and column-fill of
`ContactBuilder._deduplicate` (columns `market_actor_id`, `market_actor_name`,
`email`, `phone`, `website`).  The id is kept as the raw string key used for
`store.setdefault(row.get("market_actor_id", ""), row)`. -/
structure MarketRow where
  market_actor_id : String
  market_actor_name : Cell
  email : Cell
  phone : Cell
  website : Cell
deriving DecidableEq, Repr

/-- The retention test of `ContactBuilder._deduplicate` (line 87):
`if not (row.get("email") or row.get("phone") or str(row.get("website", ""))): continue`.
Note `str(...)` maps NaN to the non-empty string `"nan"`, so for the website as
well only an actual empty string fails the test. -/
def retainRow (r : MarketRow) : Bool :=
  cellTruthy r.email || cellTruthy r.phone || (cellStr r.website != "")

/-- One `store.setdefault(key, row)` step guarded by the retention test:
a retained row is appended iff its key is not already present (Python dicts
keep insertion order, `setdefault` never overwrites). -/
def upsertFirstWins (store : List MarketRow) (r : MarketRow) : List MarketRow :=
  if retainRow r then
    if store.any (fun s => s.market_actor_id == r.market_actor_id) then store
    else store ++ [r]
  else store

/-- A chunk delivered by `pd.read_csv(..., chunksize=CHUNKSIZE)` as seen by the
dedup loop: parsed rows, a parsed chunk with none of the expected column names
(skipped with a diagnostic), or a chunk whose read raises. -/
inductive MarketChunk where
  | ok (rows : List MarketRow)
  | noCols
  | raises
deriving DecidableEq, Repr

/-- The chunk loop of `ContactBuilder._deduplicate`: the whole `for` loop sits
inside one `try`, so an exception raised by a chunk ends the scan (the handler
is outside the loop) and the accumulated store is kept; a chunk without the
expected columns hits `continue`. -/
def dedupChunksAux : List MarketChunk → List MarketRow → List MarketRow
  | [], store => store
  | MarketChunk.raises :: _, store => store
  | MarketChunk.noCols :: rest, store => dedupChunksAux rest store
  | MarketChunk.ok rows :: rest, store =>
      dedupChunksAux rest (rows.foldl upsertFirstWins store)

/-- Model of `ContactBuilder._deduplicate`: fold all chunks into the key-indexed store,
starting empty; the resulting DataFrame lists the stored rows in insertion
order (`pd.DataFrame.from_dict(store, orient="index")`). -/
def dedupTable (chunks : List MarketChunk) : List MarketRow :=
  dedupChunksAux chunks []

lemma nodup_ids_upsert (store : List MarketRow) (r : MarketRow)
    (h : (store.map (fun s => s.market_actor_id)).Nodup) :
    ((upsertFirstWins store r).map (fun s => s.market_actor_id)).Nodup := by
  unfold upsertFirstWins
  split
  · split
    · exact h
    · rename_i hr ha
      simp only [List.any_eq_true, beq_iff_eq, not_exists, not_and] at ha
      simp only [List.map_append, List.map_cons, List.map_nil]
      rw [List.nodup_append]
      refine ⟨h, List.nodup_singleton _, ?_⟩
      intro a ha1 ha2
      simp only [List.mem_singleton] at ha2
      subst ha2
      obtain ⟨s, hs, hsid⟩ := List.mem_map.mp ha1
      exact ha s hs hsid
  · exact h

lemma nodup_ids_foldl_upsert (rows : List MarketRow) (store : List MarketRow)
    (h : (store.map (fun s => s.market_actor_id)).Nodup) :
    (((rows.foldl upsertFirstWins store)).map (fun s => s.market_actor_id)).Nodup := by
  induction rows generalizing store with
  | nil => exact h
  | cons r rest ih => exact ih _ (nodup_ids_upsert store r h)

lemma nodup_ids_dedupChunksAux (chunks : List MarketChunk) (store : List MarketRow)
    (h : (store.map (fun s => s.market_actor_id)).Nodup) :
    ((dedupChunksAux chunks store).map (fun s => s.market_actor_id)).Nodup := by
  induction chunks generalizing store with
  | nil => exact h
  | cons c rest ih =>
    cases c with
    | ok rows => exact ih _ (nodup_ids_foldl_upsert rows store h)
    | noCols => exact ih _ h
    | raises => exact h

lemma nodup_ids_dedupTable (chunks : List MarketChunk) :
    ((dedupTable chunks).map (fun s => s.market_actor_id)).Nodup :=
  nodup_ids_dedupChunksAux chunks [] (by simp)

lemma find?_foldl_upsert (k : String) (rows : List MarketRow) (store : List MarketRow) :
    (rows.foldl upsertFirstWins store).find? (fun r => r.market_actor_id == k)
      = ((store.find? (fun r => r.market_actor_id == k)).or
          (rows.find? (fun r => retainRow r && (r.market_actor_id == k)))) := by
  induction rows generalizing store with
  | nil => simp
  | cons r rest ih =>
    simp only [List.foldl_cons]
    rw [ih]
    by_cases hr : retainRow r = true
    · by_cases hk : (r.market_actor_id == k) = true
      · rw [List.find?_cons_of_pos _ (by simp [hr, hk])]
        by_cases ha : store.any (fun s => s.market_actor_id == r.market_actor_id) = true
        · have hstore : ((store.find? (fun r => r.market_actor_id == k))).isSome := by
            simp only [List.any_eq_true] at ha
            obtain ⟨s, hs, hsid⟩ := ha
            rw [List.find?_isSome]
            exact ⟨s, hs, by rw [eq_of_beq hsid]; exact hk⟩
          obtain ⟨w, hw⟩ := Option.isSome_iff_exists.mp hstore
          simp [upsertFirstWins, hr, ha, hw, Option.or]
        · simp only [upsertFirstWins, hr, ha, if_true, if_false, Bool.false_eq_true]
          rw [List.find?_append, Option.or_assoc]
          congr 1
          have h1 : List.find? (fun x => x.market_actor_id == k) [r] = some r :=
            List.find?_cons_of_pos _ hk
          rw [h1]
          rfl
      · rw [List.find?_cons_of_neg _ (by simp [hk])]
        by_cases ha : store.any (fun s => s.market_actor_id == r.market_actor_id) = true
        · simp [upsertFirstWins, hr, ha]
        · simp only [upsertFirstWins, hr, ha, if_true, if_false, Bool.false_eq_true]
          rw [List.find?_append]
          congr 1
          have h1 : List.find? (fun x => x.market_actor_id == k) [r] = none := by
            rw [List.find?_cons_of_neg _ (by simp [hk]), List.find?_nil]
          rw [h1, Option.or_none]
    · have hq : (fun x => retainRow x && (x.market_actor_id == k)) r = false := by
        simp [hr]
      rw [List.find?_cons_of_neg _ (by simp [hq])]
      simp [upsertFirstWins, hr]

lemma dedupChunksAux_map_ok (chunks : List (List MarketRow)) (store : List MarketRow) :
    dedupChunksAux (chunks.map MarketChunk.ok) store
      = chunks.flatten.foldl upsertFirstWins store := by
  induction chunks generalizing store with
  | nil => rfl
  | cons c rest ih =>
    simp only [List.map_cons, dedupChunksAux, List.flatten_cons, List.foldl_append]
    exact ih _

lemma mem_foldl_upsert {x : MarketRow} (rows : List MarketRow) (store : List MarketRow)
    (hx : x ∈ rows.foldl upsertFirstWins store) : x ∈ store ∨ retainRow x = true := by
  induction rows generalizing store with
  | nil => exact Or.inl hx
  | cons r rest ih =>
    simp only [List.foldl_cons] at hx
    rcases ih _ hx with h | h
    · unfold upsertFirstWins at h
      split at h
      · split at h
        · exact Or.inl h
        · rename_i hr _
          rcases List.mem_append.mp h with h' | h'
          · exact Or.inl h'
          · simp only [List.mem_singleton] at h'
            exact Or.inr (h' ▸ hr)
      · exact Or.inl h
    · exact Or.inr h

lemma mem_dedupChunksAux {x : MarketRow} (chunks : List MarketChunk)
    (store : List MarketRow) (hx : x ∈ dedupChunksAux chunks store) :
    x ∈ store ∨ retainRow x = true := by
  induction chunks generalizing store with
  | nil => exact Or.inl hx
  | cons c rest ih =>
    cases c with
    | ok rows =>
      rcases ih _ hx with h | h
      · exact mem_foldl_upsert rows store h
      · exact Or.inr h
    | noCols => exact ih _ hx
    | raises => exact Or.inl hx

/-- C3: feeding operator rows chunk-wise, the deduplicated table holds at most
one row per distinct `market_actor_id`, and the row stored under a key is the
first row with that key in feed order among the rows passing the retention
test; a later row with an already-present key never replaces it
(`store.setdefault` never overwrites). -/
theorem operator_dedup_first_write_wins (chunks : List (List MarketRow)) (k : String) :
    ((dedupTable (chunks.map MarketChunk.ok)).map (fun r => r.market_actor_id)).Nodup ∧
    (dedupTable (chunks.map MarketChunk.ok)).find? (fun r => r.market_actor_id == k)
      = chunks.flatten.find? (fun r => retainRow r && (r.market_actor_id == k)) := by
  refine ⟨nodup_ids_dedupTable _, ?_⟩
  unfold dedupTable
  rw [dedupChunksAux_map_ok, find?_foldl_upsert]
  simp

/-- A row whose three contact cells are all missing values (NaN): it carries no
contact signal. -/
def rowNoSignal : MarketRow := ⟨"M1", none, none, none, none⟩

/-- A row whose three contact cells are all present empty strings (as the
pipeline synthesizes when a source column is absent). -/
def rowEmptyStrings : MarketRow := ⟨"M2", none, some "", some "", some ""⟩

/-- C4 fails as stated: a row whose email, phone and website are all missing
values (NaN) — carrying no contact signal — is retained in the deduplicated
table, because `bool(nan)` is `True` in Python. -/
theorem operator_retention_counterexample :
    rowNoSignal.email = none ∧ rowNoSignal.phone = none ∧ rowNoSignal.website = none ∧
    rowNoSignal ∈ dedupTable [MarketChunk.ok [rowNoSignal]] := by
  refine ⟨rfl, rfl, rfl, ?_⟩
  decide

/-- C4 amended: a row is absent from the deduplicated table when its email,
phone and website cells are all *present empty strings*; only then does the
retention test drop it (missing NaN values are truthy and keep the row). -/
theorem operator_retention_amended (chunks : List MarketChunk) (r : MarketRow)
    (he : r.email = some "") (hp : r.phone = some "") (hw : r.website = some "") :
    r ∉ dedupTable chunks := by
  intro hmem
  rcases mem_dedupChunksAux chunks [] hmem with h | h
  · simp at h
  · rw [retainRow, he, hp, hw] at h
    simp [cellTruthy, cellStr] at h

/-- Witness for `operator_retention_amended` at a concrete row and feed. -/
theorem operator_retention_amended_witness :
    rowEmptyStrings ∉ dedupTable [MarketChunk.ok [rowEmptyStrings]] :=
  operator_retention_amended [MarketChunk.ok [rowEmptyStrings]] rowEmptyStrings rfl rfl rfl

/-!
Plant side (`plant_builder.py`).  Numeric cells are modelled over `Rat`:
`pd.to_numeric(..., errors="coerce")` is embedded as a parser of simple decimal
literals (optional sign, digits, optional fractional part), returning `none`
(NaN) on anything else, and `.astype(int)` as truncation toward zero.
-/

/-- Value of a digit string, most significant first. -/
def digitsToNat (cs : List Char) : Nat :=
  cs.foldl (fun n c => 10 * n + (c.toNat - '0'.toNat)) 0

/-- Split a character list at each dot (the semantics of `splitOn "."`). -/
def splitOnDot (cs : List Char) : List (List Char) :=
  cs.foldr (fun c acc =>
    if c = '.' then [] :: acc
    else
      match acc with
      | g :: gs => (c :: g) :: gs
      | [] => [[c]]) [[]]

/-- Unsigned decimal literal: digits with at most one dot. -/
def parseUnsigned? (cs : List Char) : Option Rat :=
  match splitOnDot cs with
  | [ip] =>
      if !ip.isEmpty && ip.all Char.isDigit then
        some ((digitsToNat ip : Int) : Rat)
      else none
  | [ip, fp] =>
      if !(ip ++ fp).isEmpty && (ip.all Char.isDigit && fp.all Char.isDigit) then
        some ((digitsToNat ip : Rat)
          + (digitsToNat fp : Rat) / ((10 : Rat) ^ fp.length))
      else none
  | _ => none

/-- Model of `pd.to_numeric(x, errors="coerce")` on one string: a signed decimal
literal, or NaN (`none`). -/
def parseRat? (s : String) : Option Rat :=
  match s.toList with
  | '-' :: rest => (parseUnsigned? rest).map (fun q => -q)
  | '+' :: rest => parseUnsigned? rest
  | cs => parseUnsigned? cs

/-- numpy `.astype(int)`: truncation toward zero. -/
def pyIntTrunc (q : Rat) : Int :=
  if 0 ≤ q then q.floor else q.ceil

/-- Model of `pd.to_numeric(col, errors="coerce").fillna(0).astype(int)` on one cell. -/
def toNumFillZeroInt (c : Cell) : Int :=
  match c.bind parseRat? with
  | some q => pyIntTrunc q
  | none => 0

/-- Python `str.strip()` (both-ends whitespace removal). -/
def pyStrip (s : String) : String :=
  (((s.toList.dropWhile Char.isWhitespace).reverse.dropWhile Char.isWhitespace).reverse).asString

/-- Collapse every maximal run of whitespace to a single space:
`.str.replace(r"\s+", " ", regex=True)`. -/
def collapseWsAux : List Char → List Char
  | [] => []
  | c :: rest =>
      if c.isWhitespace then ' ' :: collapseWsAux (rest.dropWhile Char.isWhitespace)
      else c :: collapseWsAux rest
termination_by l => l.length
decreasing_by
  · simp only [List.length_cons]
    exact Nat.lt_succ_of_le (List.Sublist.length_le (List.dropWhile_sublist _))
  · simp

def collapseWs (s : String) : String := (collapseWsAux s.toList).asString

/-- Delete every whitespace character: `.str.replace(r"\s+", "", regex=True)`. -/
def removeWs (s : String) : String :=
  (s.toList.filter (fun c => !c.isWhitespace)).asString

/-- Pandas `.str.replace(" ", "_")` (literal single-space replacement). -/
def replaceSpaceUnderscore (s : String) : String :=
  (s.toList.map (fun c => if c = ' ' then '_' else c)).asString

/-- Python `str.lower()` (ASCII letters). -/
def pyLower (s : String) : String :=
  (s.toList.map Char.toLower).asString

/-- A plant row after the per-source column renaming of
`PlantBuilder._enrich` (biomass: `Nettonennleistung` is the capacity column;
gas producer: `Erzeugungsleistung`).  `capacity` is the source capacity cell;
the capacity the source structurally lacks is synthesized as the string `"0"`
in the code and parses to 0.  `latitude_raw`/`longitude_raw` are the renamed
`Breitengrad`/`Laengengrad` cells; the column selection
`chunk = chunk[required_cols].copy()` at line 145 drops them before the
coordinate step, so the transform below never reads them. -/
structure PlantRaw where
  unit_id : Cell
  plant_name : Cell
  postal_code : Cell
  commissioning_year : Cell
  capacity : Cell
  operator_id : Cell
  latitude_raw : Cell
  longitude_raw : Cell
deriving DecidableEq, Repr

/-- A row of the output plants table (final column order of `_enrich`).
The coordinate columns come from the `loc_map` fallback (see `enrichRow`), so
they hold the dict's string values or `None` — they are never parsed. -/
structure PlantRow where
  plant_id : String
  plant_name : String
  postal_code : String
  commissioning_year : Int
  capacity_el_kW : Int
  capacity_gas_m3h : Int
  operator_id : String
  latitude : Cell
  longitude : Cell
  plant_type : String
deriving DecidableEq, Repr

/-- A `loc_map` as passed to `_enrich`: unit id string → latitude/longitude
cell pair.  `PlantBuilder.build` (lines 54-60) fills it with
`{"latitude": "", "longitude": ""}` per seen `MastrNummer`, or leaves it
empty on a read error. -/
abbrev LocMap := List (String × (Cell × Cell))

/-- `loc_map.get(str(uid), {"latitude": None, "longitude": None})`
(line 153-155): look the unit id up, defaulting both coordinates to `None`. -/
def locLookup (locMap : LocMap) (key : String) : Cell × Cell :=
  match locMap.find? (fun e => e.1 == key) with
  | some e => e.2
  | none => (none, none)

/-- Row-wise clean/transform steps of `PlantBuilder._enrich` (lines 145-180):
* `plant_id = unit_id.astype(str).str.replace(" ", "_").str.lower()`
* `plant_name = plant_name.astype(str).str.strip().str.replace(r"\s+", " ")`
* `postal_code = postal_code.astype(str).str.strip().str.replace(r"\s+", "")`
* `commissioning_year`: `astype(str).str[:4]` then numeric coercion, 0 on NaN
* capacities: numeric coercion with 0 on NaN, the off-source one fixed to 0
* `operator_id = operator_id.astype(str).str.strip().str.replace(r"\s+", "")`
* coordinates: the branch `if "latitude_raw" in chunk.columns` at line 148 is
  always false, because line 145 restricted the frame to `required_cols`;
  the program therefore always takes the else branch and fills
  `latitude`/`longitude` from `loc_map.get(str(uid), ...)` — the raw
  coordinate cells are never parsed
* `plant_type = "biogas"` for the biomass source (`has_el`), else `"gas"`. -/
def enrichRow (has_el : Bool) (locMap : LocMap) (r : PlantRaw) : PlantRow :=
  { plant_id := pyLower (replaceSpaceUnderscore (cellStr r.unit_id))
    plant_name := collapseWs (pyStrip (cellStr r.plant_name))
    postal_code := removeWs (pyStrip (cellStr r.postal_code))
    commissioning_year := toNumFillZeroInt (some ((cellStr r.commissioning_year).toList.take 4).asString)
    capacity_el_kW := if has_el then toNumFillZeroInt r.capacity else 0
    capacity_gas_m3h := if has_el then 0 else toNumFillZeroInt r.capacity
    operator_id := removeWs (pyStrip (cellStr r.operator_id))
    latitude := (locLookup locMap (cellStr r.unit_id)).1
    longitude := (locLookup locMap (cellStr r.unit_id)).2
    plant_type := if has_el then "biogas" else "gas" }

/-- A chunk as seen by the `_enrich` loop: parsed rows; a non-empty chunk of
`n` rows none of whose column names match any expected source column; or a
chunk whose read raises. -/
inductive PlantChunk where
  | ok (rows : List PlantRaw)
  | noCols (n : Nat)
  | raises
deriving DecidableEq, Repr

/-- The all-default raw row a no-matching-columns chunk turns into: every
required column is filled with the empty string at lines 141-143 (the
synthesized capacity column is handled by `enrichRow`'s constant side); the
renamed coordinate columns do not exist for such a chunk. -/
def defaultPlantRaw : PlantRaw :=
  ⟨some "", some "", some "", some "", some "", some "", none, none⟩

/-- The generator `PlantBuilder._enrich`: one `try` wraps the whole chunk
loop; an empty chunk hits `continue` at line 98.  A chunk with no matching
columns is NOT skipped: lines 113/126 synthesize a capacity column (a member
of `required_cols`) on every non-empty chunk before the check at line 135, so
`available_cols` is never empty, the `continue` at line 138 is unreachable,
and the chunk's rows are processed with every required column filled `""`.
A raising chunk is caught outside the loop, yielding one empty frame and
ending the generator (frames already yielded are kept by the caller). -/
def enrichChunks (has_el : Bool) (locMap : LocMap) :
    List PlantChunk → List (List PlantRow)
  | [] => []
  | PlantChunk.raises :: _ => [[]]
  | PlantChunk.noCols 0 :: rest => enrichChunks has_el locMap rest
  | PlantChunk.noCols (n + 1) :: rest =>
      (List.replicate (n + 1) defaultPlantRaw).map (enrichRow has_el locMap)
        :: enrichChunks has_el locMap rest
  | PlantChunk.ok [] :: rest => enrichChunks has_el locMap rest
  | PlantChunk.ok rows :: rest =>
      rows.map (enrichRow has_el locMap) :: enrichChunks has_el locMap rest

/-- Model of `PlantBuilder.build`: enrich the biomass chunks and the gas chunks, then
`pd.concat(biomass_dfs + gas_dfs, ignore_index=True)` (an empty scaffold frame
when both are empty).  No deduplication is applied to plant rows. -/
def buildPlants (locMap : LocMap) (biomass gas : List PlantChunk) : List PlantRow :=
  (enrichChunks true locMap biomass).flatten ++ (enrichChunks false locMap gas).flatten

/-- The two duplicate-id biomass rows of the end-to-end scenario. -/
def rawA1op1 : PlantRaw :=
  ⟨some "A1", some "P one", some "11111", some "2020-01-01", some "500", some "OP1", none, none⟩

def rawA1op2 : PlantRaw :=
  ⟨some "A1", some "P two", some "11111", some "2021-01-01", some "999", some "OP2", none, none⟩

lemma enrichRow_rawA1op1_eval :
    (enrichRow true [] rawA1op1).plant_id = "a1" ∧
    (enrichRow true [] rawA1op1).operator_id = "OP1" ∧
    (enrichRow true [] rawA1op1).commissioning_year = 2020 ∧
    (enrichRow true [] rawA1op1).capacity_el_kW = 500 ∧
    (enrichRow true [] rawA1op1).capacity_gas_m3h = 0 ∧
    (enrichRow true [] rawA1op1).latitude = none ∧
    (enrichRow true [] rawA1op1).plant_type = "biogas" := by
  refine ⟨rfl, rfl, by decide, by decide, rfl, rfl, rfl⟩

lemma enrichChunks_map_ok (b : Bool) (locMap : LocMap)
    (chunks : List (List PlantRaw)) :
    (enrichChunks b locMap (chunks.map PlantChunk.ok)).flatten
      = chunks.flatten.map (enrichRow b locMap) := by
  induction chunks with
  | nil => rfl
  | cons c rest ih =>
    cases c with
    | nil =>
      simp only [List.map_cons, enrichChunks, List.flatten_cons, List.map_nil,
        List.nil_append]
      exact ih
    | cons x xs =>
      simp only [List.map_cons, enrichChunks, List.flatten_cons, List.map_append]
      rw [ih]

/-- C1 fails as stated: the plant builder performs no deduplication by
`unit_id` — it only renames, cleans and concatenates the chunks.  For the
input plant extract with two rows sharing unit id "A1" (operator "OP1" first,
then "OP2"), the output plants table holds two rows with `plant_id` "a1",
not exactly one. -/
theorem plant_dedup_counterexample :
    ((buildPlants [] [PlantChunk.ok [rawA1op1, rawA1op2]] []).filter
        (fun p => p.plant_id == "a1")).length = 2 ∧
    (buildPlants [] [PlantChunk.ok [rawA1op1, rawA1op2]] []).map
        (fun p => (p.plant_id, p.operator_id))
      = [("a1", "OP1"), ("a1", "OP2")] := by
  constructor
  · decide
  · decide

/-- C1 amended: the output plants table is not deduplicated by unit id: for
every location map, it contains exactly one row per input row, in feed order
(biomass rows first, then gas rows), each row being the enrichment of its
source row (coordinates drawn from the location map, the raw coordinate cells
being dropped before the coordinate step); for the A1 scenario the table has
exactly two rows with `plant_id` "a1", the first carrying `operator_id` "OP1"
and the second "OP2". -/
theorem plant_build_one_row_per_input_row (locMap : LocMap)
    (biomass gas : List (List PlantRaw)) :
    buildPlants locMap (biomass.map PlantChunk.ok) (gas.map PlantChunk.ok)
      = biomass.flatten.map (enrichRow true locMap)
        ++ gas.flatten.map (enrichRow false locMap) ∧
    ((buildPlants [] [PlantChunk.ok [rawA1op1, rawA1op2]] []).map
        (fun p => (p.plant_id, p.operator_id)))
      = [("a1", "OP1"), ("a1", "OP2")] := by
  constructor
  · unfold buildPlants
    rw [enrichChunks_map_ok, enrichChunks_map_ok]
  · decide

/-- Model of `plants.merge(contacts, left_on="operator_id", right_on="market_actor_id",
how="left")` (scripts/main.py line 47): every plant row is paired with each
contact row whose `market_actor_id` equals the plant's `operator_id`; a plant
with no match is kept once, with the operator-side fields null.  `how="left"`
preserves the order of the left frame. -/
def leftMerge (plants : List PlantRow) (contacts : List MarketRow) :
    List (PlantRow × Option MarketRow) :=
  plants.flatMap (fun p =>
    match contacts.filter (fun c => c.market_actor_id == p.operator_id) with
    | [] => [(p, none)]
    | ms => ms.map (fun c => (p, some c)))

lemma filter_key_of_nodup (contacts : List MarketRow)
    (h : (contacts.map (fun s => s.market_actor_id)).Nodup) (k : String) :
    contacts.filter (fun c => c.market_actor_id == k)
      = (contacts.find? (fun c => c.market_actor_id == k)).toList := by
  induction contacts with
  | nil => rfl
  | cons c rest ih =>
    simp only [List.map_cons, List.nodup_cons] at h
    obtain ⟨hc, hrest⟩ := h
    by_cases hk : (c.market_actor_id == k) = true
    · have hfind : List.find? (fun x => x.market_actor_id == k) (c :: rest) = some c :=
        List.find?_cons_of_pos _ hk
      have hnil : rest.filter (fun x => x.market_actor_id == k) = [] := by
        rw [List.filter_eq_nil_iff]
        intro a ha hbeq
        apply hc
        rw [List.mem_map]
        exact ⟨a, ha, by rw [eq_of_beq hbeq, eq_of_beq hk]⟩
      rw [List.filter_cons, hfind]
      simp only [hk, if_true, hnil]
      rfl
    · have hfind : List.find? (fun x => x.market_actor_id == k) (c :: rest)
          = List.find? (fun x => x.market_actor_id == k) rest :=
        List.find?_cons_of_neg _ (by simp [hk])
      rw [List.filter_cons, hfind]
      simp only [hk, if_false, Bool.false_eq_true]
      exact ih hrest

/-- C2: left-joining the plants table onto a deduplicated operator table on
`operator_id = market_actor_id` yields exactly one output row per plant row,
in order, with the operator side `none` when unmatched — so the row count
equals the plant row count for every input (no fan-out, no row loss). -/
theorem join_cardinality (plants : List PlantRow) (chunks : List MarketChunk) :
    leftMerge plants (dedupTable chunks)
      = plants.map (fun p =>
          (p, (dedupTable chunks).find? (fun c => c.market_actor_id == p.operator_id))) ∧
    (leftMerge plants (dedupTable chunks)).length = plants.length := by
  have hmap : leftMerge plants (dedupTable chunks)
      = plants.map (fun p =>
          (p, (dedupTable chunks).find? (fun c => c.market_actor_id == p.operator_id))) := by
    unfold leftMerge
    induction plants with
    | nil => rfl
    | cons p rest ih =>
      have hp : (match (dedupTable chunks).filter
            (fun c => c.market_actor_id == p.operator_id) with
          | [] => [(p, (none : Option MarketRow))]
          | ms => ms.map (fun c => (p, some c)))
          = [(p, (dedupTable chunks).find? (fun c => c.market_actor_id == p.operator_id))] := by
        rw [filter_key_of_nodup _ (nodup_ids_dedupTable chunks)]
        cases (dedupTable chunks).find? (fun c => c.market_actor_id == p.operator_id) with
        | none => rfl
        | some c => rfl
      rw [List.flatMap_cons, hp, List.map_cons, ih]
      rfl
  exact ⟨hmap, by rw [hmap, List.length_map]⟩

lemma dedupChunksAux_append_ok (pre : List (List MarketRow)) (tail : List MarketChunk)
    (store : List MarketRow) :
    dedupChunksAux (pre.map MarketChunk.ok ++ tail) store
      = dedupChunksAux tail (pre.flatten.foldl upsertFirstWins store) := by
  induction pre generalizing store with
  | nil => simp [dedupChunksAux]
  | cons c rest ih =>
    simp only [List.map_cons, List.cons_append, dedupChunksAux, List.flatten_cons,
      List.foldl_append]
    exact ih _

/-- A row with a contact signal (a phone), used to show the scan does not
reach the chunk after a raising one. -/
def rowGood : MarketRow := ⟨"M9", none, none, some "123", some "w.example"⟩

/-- C5 fails as stated: the `try` of `_deduplicate` wraps the whole chunk
loop, so a chunk whose read raises ends the scan; a retained-worthy row in the
*next* chunk never reaches the table, i.e. the scan does not continue with the
next chunk. -/
theorem chunk_fault_tolerance_counterexample :
    retainRow rowGood = true ∧
    dedupTable [MarketChunk.raises, MarketChunk.ok [rowGood]] = [] ∧
    dedupTable [MarketChunk.ok [rowGood]] = [rowGood] := by
  refine ⟨rfl, rfl, ?_⟩
  decide

/-- C5 amended: in the operator dedup scan, a chunk with none of the expected
column names is skipped with a diagnostic and the scan continues with the
next chunk.  In the plant scan such a chunk is never skipped: a capacity
column is synthesized before the column check, so a non-empty no-matching
chunk is processed into one all-default row per input row (only an empty
chunk is skipped).  In both scans a chunk that raises terminates the scan at
that point — the accumulation from the chunks before it is kept (the builder
returns it instead of aborting the pipeline), while every later chunk is left
unprocessed. -/
theorem chunk_fault_tolerance_amended (b : Bool) (locMap : LocMap)
    (pre : List (List MarketRow)) (rest : List MarketChunk)
    (store : List MarketRow) (n : Nat) (restP : List PlantChunk) :
    dedupChunksAux (pre.map MarketChunk.ok ++ MarketChunk.noCols :: rest) store
      = dedupChunksAux (pre.map MarketChunk.ok ++ rest) store ∧
    dedupChunksAux (pre.map MarketChunk.ok ++ MarketChunk.raises :: rest) store
      = pre.flatten.foldl upsertFirstWins store ∧
    enrichChunks b locMap (PlantChunk.noCols (n + 1) :: restP)
      = (List.replicate (n + 1) defaultPlantRaw).map (enrichRow b locMap)
          :: enrichChunks b locMap restP ∧
    enrichChunks b locMap (PlantChunk.noCols 0 :: restP)
      = enrichChunks b locMap restP ∧
    enrichChunks b locMap (PlantChunk.raises :: restP) = [[]] := by
  refine ⟨?_, ?_, rfl, rfl, rfl⟩
  · rw [dedupChunksAux_append_ok, dedupChunksAux_append_ok]
    rfl
  · rw [dedupChunksAux_append_ok]
    rfl

/-!
Contact resolution (`ContactBuilder._scrape_missing` and helpers).  The web is
abstracted as an environment giving, per record, the outcome of each tier:
for the plain-fetch tier the first suffix page that is fetched successfully as
HTML and matches the email/phone patterns (both `none` when no suffix
produced a match), and for the browser tier the patterns' matches on the
rendered page (both `none` also models a caught per-record exception).
-/

/-- What a fetch tier extracted for one record: the first email-pattern match
and the first phone-pattern match, if any. -/
structure FetchOutcome where
  email : Option String
  phone : Option String
deriving DecidableEq, Repr

structure ScrapeEnv where
  plain : MarketRow → FetchOutcome
  browser : MarketRow → FetchOutcome

/-- The selection mask of `_scrape_missing` (line 106):
`(df.email.isna() | (df.email == "")) & (df.phone.isna() | (df.phone == "")) & df.website.notna()`.
Note the website conjunct only excludes missing values: a present empty-string
website passes `notna`. -/
def isnaOrEmptyCell : Cell → Bool
  | none => true
  | some s => s == ""

def scrapeMask (r : MarketRow) : Bool :=
  isnaOrEmptyCell r.email && isnaOrEmptyCell r.phone && r.website.isSome

/-- The selection the spec describes, written from its words: neither an email
nor a phone, and a non-empty website. -/
def cellHasValue : Cell → Bool
  | none => false
  | some s => s != ""

def specScrapeSelected (r : MarketRow) : Bool :=
  !cellHasValue r.email && !cellHasValue r.phone && cellHasValue r.website

/-- The in-place writes of `_try_plain` / `_try_selenium`:
`if email: df.at[idx, "email"] = email` and likewise for the phone — each cell
is overwritten only when that pattern matched. -/
def applyOutcome (o : FetchOutcome) (r : MarketRow) : MarketRow :=
  { r with
    email := match o.email with | some e => some e | none => r.email
    phone := match o.phone with | some p => some p | none => r.phone }

/-- Whether `_try_plain` returns `True`: some suffix page matched an email or
a phone. -/
def plainFound (o : FetchOutcome) : Bool :=
  o.email.isSome || o.phone.isSome

/-- The loop body of `_scrape_missing` (lines 121-129) for one selected
record.  Returns the updated row and whether `time.sleep(1.5)` ran: when
`_try_plain` succeeds, `continue` skips both the browser tier and the sleep;
otherwise the browser tier runs when a driver is present, and then the sleep. -/
def processRecord (driver : Bool) (env : ScrapeEnv) (r : MarketRow) :
    MarketRow × Bool :=
  let o := env.plain r
  if plainFound o then (applyOutcome o r, false)
  else
    let r' := if driver then applyOutcome (env.browser r) r else r
    (r', true)

/-- Model of `_scrape_missing` on the whole table: the subset is chosen by the mask
computed up front (`subset = df[mask].copy()`), and the loop writes back into
`df` at each selected row's unique index, so the pass maps each selected row
through `processRecord` and leaves every other row alone. -/
def scrapeMissing (driver : Bool) (env : ScrapeEnv) (df : List MarketRow) :
    List MarketRow :=
  df.map (fun r => if scrapeMask r then (processRecord driver env r).1 else r)

/-- Number of `time.sleep(1.5)` calls executed during the pass. -/
def passSleepCount (driver : Bool) (env : ScrapeEnv) (df : List MarketRow) : Nat :=
  ((df.filter scrapeMask).filter (fun r => (processRecord driver env r).2)).length

/-- A record with a present but empty-string website (as synthesized when the
website column is absent from the source). -/
def rowEmptyWebsite : MarketRow := ⟨"M3", none, none, none, some ""⟩

/-- C6 fails as stated: a record with no email, no phone and a present
*empty-string* website is selected for scraping (`df.website.notna()` only
excludes missing values), while the claim says records with an empty website
are not selected. -/
theorem scrape_selection_counterexample :
    List.filter scrapeMask [rowEmptyWebsite] = [rowEmptyWebsite] ∧
    specScrapeSelected rowEmptyWebsite = false ∧
    rowEmptyWebsite.website = some "" := by
  refine ⟨?_, rfl, rfl⟩
  decide

/-- C6 amended: the records submitted to contact resolution are exactly those
whose email is missing or empty, whose phone is missing or empty, and whose
website cell is *present* — including a present empty string; only a missing
(NaN) website excludes a record. -/
theorem scrape_selection_amended (df : List MarketRow) (r : MarketRow) :
    r ∈ df.filter scrapeMask
      ↔ r ∈ df ∧ (r.email = none ∨ r.email = some "")
          ∧ (r.phone = none ∨ r.phone = some "") ∧ r.website ≠ none := by
  have hmask : scrapeMask r = true
      ↔ ((r.email = none ∨ r.email = some "")
          ∧ (r.phone = none ∨ r.phone = some "") ∧ r.website ≠ none) := by
    obtain ⟨i, n, e, p, w⟩ := r
    cases e <;> cases p <;> cases w <;>
      simp [scrapeMask, isnaOrEmptyCell]
  rw [List.mem_filter, hmask]

/-- Witness for `scrape_selection_amended` at a concrete table and record. -/
theorem scrape_selection_amended_witness :
    rowEmptyWebsite ∈ List.filter scrapeMask [rowEmptyWebsite]
      ↔ rowEmptyWebsite ∈ [rowEmptyWebsite]
          ∧ (rowEmptyWebsite.email = none ∨ rowEmptyWebsite.email = some "")
          ∧ (rowEmptyWebsite.phone = none ∨ rowEmptyWebsite.phone = some "")
          ∧ rowEmptyWebsite.website ≠ none :=
  scrape_selection_amended [rowEmptyWebsite] rowEmptyWebsite

/-- A record in need of scraping, and an environment in which the plain tier
finds an email on one of the suffix pages. -/
def rowNeedsScrape : MarketRow := ⟨"M4", none, none, none, some "example.com"⟩

def envPlainHit : ScrapeEnv :=
  ⟨fun _ => ⟨some "contact@example.com", none⟩, fun _ => ⟨none, none⟩⟩

/-- C7 fails as stated: when the plain-fetch tier succeeds, the loop body hits
`continue`, which skips `time.sleep(1.5)` — the delay is not applied after
such a record. -/
theorem rate_limit_counterexample :
    scrapeMask rowNeedsScrape = true ∧
    (processRecord false envPlainHit rowNeedsScrape).2 = false ∧
    passSleepCount false envPlainHit [rowNeedsScrape] = 0 := by
  refine ⟨rfl, rfl, ?_⟩
  decide

/-- C7 amended: the fixed 1.5-second delay runs after exactly those processed
records whose plain-fetch tier found nothing (whether or not the browser tier
then ran); a record resolved by the plain tier skips the delay via
`continue`. -/
theorem rate_limit_amended (driver : Bool) (env : ScrapeEnv) (df : List MarketRow) :
    passSleepCount driver env df
      = ((df.filter scrapeMask).filter (fun r => !plainFound (env.plain r))).length ∧
    ∀ r, (processRecord driver env r).2 = !plainFound (env.plain r) := by
  have hrec : ∀ r, (processRecord driver env r).2 = !plainFound (env.plain r) := by
    intro r
    by_cases h : plainFound (env.plain r) = true
    · simp [processRecord, h]
    · simp [processRecord, h]
  refine ⟨?_, hrec⟩
  unfold passSleepCount
  congr 1
  apply List.filter_congr
  intro r _
  rw [hrec]

/-- Sessions created before the loop of `_scrape_missing` (lines 110-119):
one `webdriver.Chrome(...)` when the selenium toggle is on and the import
succeeds, none otherwise. -/
def browserSessionsCreated (driver : Bool) : Nat := if driver then 1 else 0

/-- The fate of the session: the loop over the selected records, followed by
`if driver: driver.quit()`.  There is no `try`/`finally`, so an exception
raised while processing a record propagates past the `quit` call.  Returns
(whether `driver.quit()` ran, whether an exception escaped the loop). -/
def runPassQuit (driver : Bool) (raisesOn : MarketRow → Bool) :
    List MarketRow → Bool × Bool
  | [] => (driver, false)
  | r :: rest => if raisesOn r then (false, true) else runPassQuit driver raisesOn rest

/-- C8 fails as stated: with the browser enabled and a record whose processing
raises, the session is created but `driver.quit()` never runs — teardown is
not guaranteed on early exit. -/
theorem browser_teardown_counterexample :
    browserSessionsCreated true = 1 ∧
    runPassQuit true (fun _ => true) [rowNeedsScrape] = (false, true) := by
  exact ⟨rfl, rfl⟩

/-- C8 amended: at most one browser session is created for the whole pass
(exactly one when the fallback is enabled and available), and it is torn down
after the last record exactly when no exception escapes a record's
processing; an escaping exception skips `driver.quit()` (there is no
`try`/`finally`). -/
theorem browser_lifecycle_amended (driver : Bool) (raisesOn : MarketRow → Bool)
    (records : List MarketRow) :
    browserSessionsCreated driver ≤ 1 ∧
    runPassQuit driver raisesOn records
      = (driver && !records.any raisesOn, records.any raisesOn) := by
  constructor
  · unfold browserSessionsCreated
    split <;> simp
  · induction records with
    | nil => simp [runPassQuit]
    | cons r rest ih =>
      by_cases h : raisesOn r = true
      · simp [runPassQuit, h]
      · simp [runPassQuit, h, ih]

lemma processRecord_fst_preserves (driver : Bool) (env : ScrapeEnv) (r : MarketRow) :
    ((processRecord driver env r).1).market_actor_id = r.market_actor_id ∧
    ((processRecord driver env r).1).market_actor_name = r.market_actor_name ∧
    ((processRecord driver env r).1).website = r.website := by
  cases hd : driver <;> by_cases h : plainFound (env.plain r) = true <;>
    simp [processRecord, h, applyOutcome]

lemma cellHasValue_eq_false_of_isnaOrEmpty {c : Cell} (h : isnaOrEmptyCell c = true) :
    cellHasValue c = false := by
  cases c with
  | none => rfl
  | some s =>
    simp only [isnaOrEmptyCell] at h
    simp [cellHasValue, eq_of_beq h]

/-- C10: the resolution pass only ever mutates the email and phone cells of
the rows selected by the mask; it keeps the set and order of rows (one output
row per input row, positionally), leaves `market_actor_id`,
`market_actor_name` and `website` untouched on every row, and returns every
unselected row — in particular every row already holding a non-empty email or
phone — completely unchanged. -/
theorem scrape_frame_effect (driver : Bool) (env : ScrapeEnv) (df : List MarketRow) :
    List.Forall₂ (fun r r' =>
        r'.market_actor_id = r.market_actor_id ∧
        r'.market_actor_name = r.market_actor_name ∧
        r'.website = r.website ∧
        (scrapeMask r = false → r' = r) ∧
        ((cellHasValue r.email = true ∨ cellHasValue r.phone = true) → r' = r))
      df (scrapeMissing driver env df) := by
  unfold scrapeMissing
  rw [List.forall₂_map_right_iff]
  rw [List.forall₂_same]
  intro r hr
  by_cases h : scrapeMask r = true
  · simp only [h, if_true]
    obtain ⟨h1, h2, h3⟩ := processRecord_fst_preserves driver env r
    refine ⟨h1, h2, h3, ?_, ?_⟩
    · intro hf
      exact absurd hf (by simp)
    · intro hv
      have hm := h
      simp only [scrapeMask, Bool.and_eq_true] at hm
      obtain ⟨⟨hme, hmp⟩, hmw⟩ := hm
      rcases hv with hv | hv
      · rw [cellHasValue_eq_false_of_isnaOrEmpty hme] at hv
        simp at hv
      · rw [cellHasValue_eq_false_of_isnaOrEmpty hmp] at hv
        simp at hv
  · simp [h]

/-- Witness for `scrape_frame_effect` on a concrete pass. -/
theorem scrape_frame_effect_witness :
    List.Forall₂ (fun r r' =>
        r'.market_actor_id = r.market_actor_id ∧
        r'.market_actor_name = r.market_actor_name ∧
        r'.website = r.website ∧
        (scrapeMask r = false → r' = r) ∧
        ((cellHasValue r.email = true ∨ cellHasValue r.phone = true) → r' = r))
      [rowNeedsScrape, rowGood]
      (scrapeMissing false envPlainHit [rowNeedsScrape, rowGood]) :=
  scrape_frame_effect false envPlainHit [rowNeedsScrape, rowGood]

def MAXROWS_XLSX : Nat := 1000000

/-- Model of `_save_xlsx` (lines 170-172):
`for i in range(0, len(df), MAXROWS_XLSX): df.iloc[i:i+MAXROWS_XLSX].to_excel(...)`
— the table is written as successive sheets of at most `MAXROWS_XLSX` rows,
in feed order; an empty table yields no sheet. -/
def saveXlsxSheets : List MarketRow → List (List MarketRow)
  | [] => []
  | x :: xs =>
      ((x :: xs).take MAXROWS_XLSX) :: saveXlsxSheets ((x :: xs).drop MAXROWS_XLSX)
termination_by l => l.length
decreasing_by
  simp only [List.length_drop, List.length_cons, MAXROWS_XLSX]
  omega

lemma saveXlsxSheets_flatten (l : List MarketRow) : (saveXlsxSheets l).flatten = l := by
  induction l using saveXlsxSheets.induct with
  | case1 => rw [saveXlsxSheets]; rfl
  | case2 x xs ih =>
    rw [saveXlsxSheets]
    rw [List.flatten_cons, ih, List.take_append_drop]

lemma saveXlsxSheets_le (l : List MarketRow) :
    ∀ s ∈ saveXlsxSheets l, s.length ≤ MAXROWS_XLSX := by
  induction l using saveXlsxSheets.induct with
  | case1 =>
    intro s hs
    simp [saveXlsxSheets] at hs
  | case2 x xs ih =>
    intro s hs
    rw [saveXlsxSheets] at hs
    rcases List.mem_cons.mp hs with h | h
    · subst h
      rw [List.length_take]
      exact min_le_left _ _
    · exact ih s h

/-- C9: the workbook rows are split into sequential sheets of at most
1,000,000 rows each, in order (every sheet respects the cap and their
concatenation is the table, for every operator table); and for a table of
exactly 1,000,001 rows there are exactly 2 sheets and the first sheet holds
exactly 1,000,000 rows. -/
theorem sheet_sharding (rows : List MarketRow) :
    (∀ s ∈ saveXlsxSheets rows, s.length ≤ 1000000) ∧
    (saveXlsxSheets rows).flatten = rows ∧
    (rows.length = 1000001 →
      (saveXlsxSheets rows).length = 2 ∧
      ((saveXlsxSheets rows).headD []).length = 1000000) := by
  have hb : ∀ s ∈ saveXlsxSheets rows, s.length ≤ 1000000 := by
    intro s hs
    have := saveXlsxSheets_le rows s hs
    simpa [MAXROWS_XLSX] using this
  refine ⟨hb, saveXlsxSheets_flatten rows, ?_⟩
  intro h
  have hpos : rows ≠ [] := by
    intro he
    rw [he] at h
    simp at h
  obtain ⟨x, xs, rfl⟩ := List.exists_cons_of_ne_nil hpos
  have hdrop : ((x :: xs).drop MAXROWS_XLSX).length = 1 := by
    rw [List.length_drop, h]
    decide
  obtain ⟨y, hy⟩ := List.length_eq_one.mp hdrop
  have h1 : [y].take MAXROWS_XLSX = [y] :=
    List.take_of_length_le (by simp [MAXROWS_XLSX])
  have h2 : [y].drop MAXROWS_XLSX = [] :=
    List.drop_eq_nil_of_le (by simp [MAXROWS_XLSX])
  have hsheets : saveXlsxSheets (x :: xs) = [(x :: xs).take MAXROWS_XLSX, [y]] := by
    rw [saveXlsxSheets, hy, saveXlsxSheets, h1, h2, saveXlsxSheets]
  constructor
  · rw [hsheets]
    rfl
  · rw [hsheets]
    simp [List.length_take, h, MAXROWS_XLSX]
    all_goals
      simp only [List.length_cons] at h
      omega

def blankRow : MarketRow := ⟨"", none, none, none, none⟩

/-- Witness for `sheet_sharding` at a concrete 1,000,001-row table, with the
instance hypothesis discharged. -/
theorem sheet_sharding_witness :
    (∀ s ∈ saveXlsxSheets (List.replicate 1000001 blankRow), s.length ≤ 1000000) ∧
    (saveXlsxSheets (List.replicate 1000001 blankRow)).flatten
      = List.replicate 1000001 blankRow ∧
    ((saveXlsxSheets (List.replicate 1000001 blankRow)).length = 2 ∧
      ((saveXlsxSheets (List.replicate 1000001 blankRow)).headD []).length = 1000000) :=
  ⟨(sheet_sharding (List.replicate 1000001 blankRow)).1,
   (sheet_sharding (List.replicate 1000001 blankRow)).2.1,
   (sheet_sharding (List.replicate 1000001 blankRow)).2.2
     (List.length_replicate 1000001 blankRow)⟩
